import Mathlib

/-!
Verification of the web-scraping corpus (AdirtKa/WebParsing).

Shallow embedding of the retrying fetcher (`src/utils/request_utils.py`,
`fetch_with_retry`), the books crawler (`src/books/async.py`:
`get_pagination_page`, `process_page`, `fetch_and_save_book`, and the
`asyncio.gather` orchestration in `main`), and the CSV writers
(`src/utils/file_utils.py` `save_to_csv`, `src/books/sync.py`
`write_to_csv`).

The network is modelled by a transport oracle: a function from the attempt
index (for the retry loop) or from the page number / URL (for the crawler)
to the outcome the network would produce.  Exceptions that the Python code
catches are outcomes of the oracle; exceptions that propagate are modelled
with `Except`.  The filesystem cache is an association list from structured
paths to file contents.
-/

/-- The network-layer failures caught by `fetch_with_retry`'s
`except (aiohttp.ClientError, asyncio.TimeoutError)` clause:
`asyncio.TimeoutError`, connection-level `aiohttp.ClientError`s, and the
`ClientResponseError` (a `ClientError` subclass) that
`response.raise_for_status()` raises for a non-2xx status. -/
inductive ErrKind where
  | timeout : ErrKind
  | connError (msg : String) : ErrKind
  | httpError (status : Nat) : ErrKind
deriving DecidableEq, Repr

/-- Outcome of one `session.get` + `raise_for_status` + `response.text()`
round trip, as produced by the transport oracle. -/
inductive Outcome where
  | success (text : String) : Outcome
  | fail (e : ErrKind) : Outcome
deriving DecidableEq, Repr

/-- Log events emitted by `fetch_with_retry` (logger.error / logger.info). -/
inductive LogEvent where
  | attemptFailed (attempt : Nat) (retries : Int) (url : String) (e : ErrKind) : LogEvent
  | retryingIn (delay : Nat) : LogEvent
  | maxRetriesReached (url : String) : LogEvent
deriving DecidableEq, Repr

/-- Observable trace of one `fetch_with_retry` call: the returned value,
the number of `session.get` attempts issued, the number of
`asyncio.sleep` calls, the total seconds slept, and the log. -/
structure FetchTrace where
  result : Option String
  attempts : Nat
  sleeps : Nat
  waited : Nat
  log : List LogEvent
deriving DecidableEq, Repr

/-- The `while attempt < retries` loop of `fetch_with_retry`
(src/utils/request_utils.py, lines 28-42).  `fuel` is the number of
remaining loop iterations (`retries - attempt`); the loop guard failing is
the `fuel = 0` case, where Python falls off the loop and implicitly
returns `None`.  On a failure the code increments `attempt`, logs the
error, and either sleeps `delay` seconds and retries (when
`attempt < retries`) or logs give-up and returns `None`. -/
def fetch_aux (transport : Nat → Outcome) (url : String) (retries : Int)
    (delay : Nat) : Nat → Nat → FetchTrace → FetchTrace
  | 0, _, tr => { tr with result := none }
  | fuel + 1, attempt, tr =>
    match transport attempt with
    | .success t => { tr with result := some t, attempts := tr.attempts + 1 }
    | .fail e =>
      let a' := attempt + 1
      let tr' : FetchTrace :=
        { tr with attempts := tr.attempts + 1,
                  log := tr.log ++ [.attemptFailed a' retries url e] }
      if (a' : Int) < retries then
        fetch_aux transport url retries delay fuel a'
          { tr' with sleeps := tr'.sleeps + 1,
                     waited := tr'.waited + delay,
                     log := tr'.log ++ [.retryingIn delay] }
      else
        { tr' with result := none, log := tr'.log ++ [.maxRetriesReached url] }

/-- `fetch_with_retry(session, url, retries=3, delay=5)`
(src/utils/request_utils.py).  `transport i` is the outcome of the
`i`-th `session.get` attempt (0-based). -/
def fetch_with_retry (transport : Nat → Outcome) (url : String)
    (retries : Int := 3) (delay : Nat := 5) : FetchTrace :=
  fetch_aux transport url retries delay retries.toNat 0
    { result := none, attempts := 0, sleeps := 0, waited := 0, log := [] }

/-- The behaviour of a fetch visible to its caller and to the clock:
returned value, request count, sleep count, total wait. -/
def observables (tr : FetchTrace) : Option String × Nat × Nat × Nat :=
  (tr.result, tr.attempts, tr.sleeps, tr.waited)

/- ### Lemmas about the retry loop -/

/-- On a transport that fails at every attempt, one run of the loop with
`fuel ≥ 1` remaining iterations makes exactly `fuel` more requests,
`fuel - 1` more sleeps, waits `(fuel - 1) * delay` more seconds, and
returns `none`. -/
theorem fetch_aux_allfail (transport : Nat → Outcome) (errs : Nat → ErrKind)
    (url : String) (retries : Int) (delay : Nat)
    (hfail : ∀ i, transport i = .fail (errs i)) :
    ∀ (fuel attempt : Nat) (tr : FetchTrace), 1 ≤ fuel →
      (attempt : Int) + (fuel : Int) = retries →
      (fetch_aux transport url retries delay fuel attempt tr).result = none ∧
      (fetch_aux transport url retries delay fuel attempt tr).attempts
        = tr.attempts + fuel ∧
      (fetch_aux transport url retries delay fuel attempt tr).sleeps
        = tr.sleeps + (fuel - 1) ∧
      (fetch_aux transport url retries delay fuel attempt tr).waited
        = tr.waited + (fuel - 1) * delay := by
  intro fuel
  induction fuel with
  | zero => intro attempt tr h; omega
  | succ f ih =>
    intro attempt tr _ hinv
    simp only [fetch_aux, hfail attempt]
    by_cases hf : 1 ≤ f
    · have hlt : ((attempt + 1 : Nat) : Int) < retries := by
        push_cast at hinv ⊢; omega
      rw [if_pos hlt]
      have hinv' : ((attempt + 1 : Nat) : Int) + (f : Int) = retries := by
        push_cast at hinv ⊢; omega
      obtain ⟨g, rfl⟩ : ∃ g, f = g + 1 := ⟨f - 1, by omega⟩
      obtain ⟨h1, h2, h3, h4⟩ := ih (attempt + 1)
        { tr with attempts := tr.attempts + 1, sleeps := tr.sleeps + 1,
                  waited := tr.waited + delay,
                  log := tr.log
                    ++ [LogEvent.attemptFailed (attempt + 1) retries url (errs attempt)]
                    ++ [LogEvent.retryingIn delay] } hf hinv'
      refine ⟨h1, ?_, ?_, ?_⟩
      · rw [h2]; dsimp only; omega
      · rw [h3]; dsimp only; omega
      · rw [h4]; dsimp only; simp only [Nat.add_sub_cancel]; ring
    · have hf0 : f = 0 := by omega
      subst hf0
      have hnlt : ¬ ((attempt + 1 : Nat) : Int) < retries := by
        push_cast at hinv ⊢; omega
      rw [if_neg hnlt]
      refine ⟨rfl, rfl, by simp, by simp⟩

/-- On an all-failing transport, the log of the finished loop contains the
failure entry of the final attempt, which carries the last observed
error. -/
theorem fetch_aux_lastErr_mem (transport : Nat → Outcome) (errs : Nat → ErrKind)
    (url : String) (retries : Int) (delay : Nat)
    (hfail : ∀ i, transport i = .fail (errs i)) :
    ∀ (fuel attempt : Nat) (tr : FetchTrace), 1 ≤ fuel →
      (attempt : Int) + (fuel : Int) = retries →
      LogEvent.attemptFailed (attempt + fuel) retries url (errs (attempt + fuel - 1))
        ∈ (fetch_aux transport url retries delay fuel attempt tr).log := by
  intro fuel
  induction fuel with
  | zero => intro attempt tr h; omega
  | succ f ih =>
    intro attempt tr _ hinv
    simp only [fetch_aux, hfail attempt]
    by_cases hf : 1 ≤ f
    · have hlt : ((attempt + 1 : Nat) : Int) < retries := by
        push_cast at hinv ⊢; omega
      rw [if_pos hlt]
      have hinv' : ((attempt + 1 : Nat) : Int) + (f : Int) = retries := by
        push_cast at hinv ⊢; omega
      have harith : attempt + (f + 1) = attempt + 1 + f := by omega
      rw [harith]
      exact ih (attempt + 1) _ hf hinv'
    · have hf0 : f = 0 := by omega
      subst hf0
      have hnlt : ¬ ((attempt + 1 : Nat) : Int) < retries := by
        push_cast at hinv ⊢; omega
      rw [if_neg hnlt]
      simp

/- ### The books crawler (src/books/async.py) -/

/-- Cache paths used by the books scraper: the pagination page file
`source/pagination_pages/page{p}.html` and the per-book file
`source/books/page{p}/{name}.html` (os.path.join of distinct components,
so distinct constructors model distinct paths). -/
inductive CachePath where
  | pageFile (p : Nat) : CachePath
  | bookFile (p : Nat) (name : String) : CachePath
deriving DecidableEq, Repr

/-- The page whose task owns a path: page `p` writes only paths owned
by `p`. -/
def pathOwner : CachePath → Nat
  | .pageFile p => p
  | .bookFile p _ => p

/-- The on-disk cache: an association list from paths to file contents;
the most recent write shadows older ones. -/
abbrev FS := List (CachePath × String)

/-- `open(name).read()` on an existing file, `none` when absent. -/
def FS.read : FS → CachePath → Option String
  | [], _ => none
  | (k, v) :: rest, q => if k = q then some v else FS.read rest q

/-- `os.path.isfile(name)`. -/
def FS.isFile (fs : FS) (q : CachePath) : Bool :=
  (FS.read fs q).isSome

/-- `open(name, "w").write(text)`. -/
def FS.write (fs : FS) (q : CachePath) (v : String) : FS :=
  (q, v) :: fs

def BASE_URL : String := "https://books.toscrape.com/"

/-- `fetch_and_save_book(book_link, book_filename, session)`
(src/books/async.py, lines 98-113): one `session.get`; on success the
text is written to `book_filename`; a `TimeoutError` is caught and
nothing is written.  `bookT link` is the transport oracle: `some text`
for a response, `none` for a timeout. -/
def fetch_and_save_book (bookT : String → Option String) (link : String)
    (bf : CachePath) (fs : FS) : FS :=
  match bookT link with
  | some text => FS.write fs bf text
  | none => fs

/-- The page-caching step of `process_page` (src/books/async.py, lines
68-72; the same check opens `main` of src/books/sync.py, lines 108-112):
if the page file is absent, call `get_pagination_page` (one network call,
whose `TimeoutError` handler yields `none`) and, when the body is truthy
(`if page_content:`), write it to the page file.  Returns the filesystem
and the number of network calls made. -/
def cache_page (pageT : Nat → Option String) (p : Nat) (fs : FS) : FS × Nat :=
  if FS.isFile fs (CachePath.pageFile p) then (fs, 0)
  else
    match pageT p with
    | some content =>
      if content.isEmpty then (fs, 1)
      else (FS.write fs (CachePath.pageFile p) content, 1)
    | none => (fs, 1)

/-- The book-fetch phase of `process_page` (src/books/async.py, lines
83-93): schedule `fetch_and_save_book` for every book whose file does not
yet exist, then `asyncio.gather` them.  Returns the filesystem and the
number of network calls (one per scheduled task, success or timeout). -/
def fetch_books (bookT : String → Option String) (p : Nat) (names : List String)
    (fs : FS) : FS × Nat :=
  let toFetch := names.filter (fun n => !(FS.isFile fs (CachePath.bookFile p n)))
  (toFetch.foldl
    (fun acc n =>
      fetch_and_save_book bookT (BASE_URL ++ "catalogue/" ++ n)
        (CachePath.bookFile p n) acc) fs,
   toFetch.length)

/-- `process_page(page, session)` (src/books/async.py, lines 66-95).
`pageT p` is the outcome of `get_pagination_page(p, session)` (`none`
when its `TimeoutError` handler returned `None`); `imgs content` is the
list of book names extracted by BeautifulSoup from the page html
(`image.find("a").get("href").rstrip("/index.html")` per image container);
`bookT` is the per-book transport.  Returns the final filesystem, the
book filenames, and the number of network calls issued, or an error when
`BeautifulSoup(None, "lxml")` raises `TypeError` because
`read_html_from_file` returned `None` for a page file that is still
missing after the fetch phase. -/
def process_page (pageT : Nat → Option String) (imgs : String → List String)
    (bookT : String → Option String) (p : Nat) (fs : FS) :
    Except Unit (FS × List CachePath × Nat) :=
  let fetched := cache_page pageT p fs
  match FS.read fetched.1 (CachePath.pageFile p) with
  | none => .error ()
  | some content =>
    let done := fetch_books bookT p (imgs content) fetched.1
    .ok (done.1, (imgs content).map (CachePath.bookFile p), fetched.2 + done.2)

/-- `asyncio.gather` over a list of tasks sharing the filesystem:
`sched` is the order in which the scheduler lets the tasks run to
completion (an arbitrary permutation of the task indices); each task's
result is stored at the task's own index, and a raised exception
propagates out of the gather. -/
def run_sched {α : Type} (tasks : List (FS → Except Unit (FS × α))) :
    List Nat → FS → List (Option α) → Except Unit (FS × List (Option α))
  | [], fs, acc => .ok (fs, acc)
  | i :: rest, fs, acc =>
    match tasks.get? i with
    | none => run_sched tasks rest fs acc
    | some t =>
      match t fs with
      | .error e => .error e
      | .ok (fs', a) => run_sched tasks rest fs' (acc.set i (some a))

/-- The crawl phase of `main` (src/books/async.py, lines 121-126):
`asyncio.gather(*(process_page(i, session) for i in pages))` under
completion order `sched`. -/
def crawl (pageT : Nat → Option String) (imgs : String → List String)
    (bookT : String → Option String) (pages : List Nat) (sched : List Nat)
    (fs : FS) : Except Unit (FS × List (Option (List CachePath × Nat))) :=
  run_sched (pages.map (fun p => process_page pageT imgs bookT p)) sched fs
    (List.replicate pages.length none)

/-- The payload a finished task delivers to the gather result list:
everything except the shared filesystem. -/
def payload {α : Type} (r : Except Unit (FS × α)) : Except Unit α :=
  r.map Prod.snd

/- ### Filesystem frame lemmas -/

theorem FS.read_write_self (fs : FS) (k : CachePath) (v : String) :
    FS.read (FS.write fs k v) k = some v := by
  simp [FS.write, FS.read]

theorem FS.read_write_ne (fs : FS) (k q : CachePath) (v : String) (h : k ≠ q) :
    FS.read (FS.write fs k v) q = FS.read fs q := by
  simp [FS.write, FS.read, h]

/-- Two filesystems that agree on every path owned by page `p`. -/
def FSAgree (p : Nat) (fs g : FS) : Prop :=
  ∀ q, pathOwner q = p → FS.read fs q = FS.read g q

theorem cache_page_read_other (pageT : Nat → Option String) (p : Nat) (fs : FS)
    (q : CachePath) (h : q ≠ CachePath.pageFile p) :
    FS.read (cache_page pageT p fs).1 q = FS.read fs q := by
  unfold cache_page
  by_cases hf : FS.isFile fs (CachePath.pageFile p)
  · rw [if_pos hf]
  · rw [if_neg hf]
    cases hp : pageT p with
    | none => rfl
    | some content =>
      dsimp only
      by_cases hc : content.isEmpty
      · rw [if_pos hc]
      · rw [if_neg hc]
        exact FS.read_write_ne _ _ _ _ (Ne.symm h)

theorem fetch_books_foldl_read (bookT : String → Option String) (p : Nat) :
    ∀ (l : List String) (fs : FS) (q : CachePath),
      (∀ n, q ≠ CachePath.bookFile p n) →
      FS.read (l.foldl
        (fun acc n =>
          fetch_and_save_book bookT (BASE_URL ++ "catalogue/" ++ n)
            (CachePath.bookFile p n) acc) fs) q = FS.read fs q := by
  intro l
  induction l with
  | nil => intro fs q h; rfl
  | cons n rest ih =>
    intro fs q h
    simp only [List.foldl_cons]
    rw [ih _ _ h]
    unfold fetch_and_save_book
    cases bookT (BASE_URL ++ "catalogue/" ++ n) with
    | none => rfl
    | some text => exact FS.read_write_ne _ _ _ _ (fun he => h n he.symm)

theorem fetch_books_read_other (bookT : String → Option String) (p : Nat)
    (names : List String) (fs : FS) (q : CachePath)
    (h : ∀ n, q ≠ CachePath.bookFile p n) :
    FS.read (fetch_books bookT p names fs).1 q = FS.read fs q := by
  unfold fetch_books
  exact fetch_books_foldl_read bookT p _ fs q h

/-- A page task only writes paths it owns: after a successful
`process_page` for page `p`, every path not owned by `p` reads as
before. -/
theorem process_page_writes_own (pageT : Nat → Option String)
    (imgs : String → List String) (bookT : String → Option String) (p : Nat)
    (fs : FS) (r : FS × List CachePath × Nat)
    (hok : process_page pageT imgs bookT p fs = .ok r)
    (q : CachePath) (hq : pathOwner q ≠ p) :
    FS.read r.1 q = FS.read fs q := by
  have hqpage : q ≠ CachePath.pageFile p := by
    intro he; subst he; exact hq rfl
  have hqbook : ∀ n, q ≠ CachePath.bookFile p n := by
    intro n he; subst he; exact hq rfl
  simp only [process_page] at hok
  cases hread : FS.read (cache_page pageT p fs).1 (CachePath.pageFile p) with
  | none => rw [hread] at hok; cases hok
  | some content =>
    rw [hread] at hok
    have hr1 : r.1 = (fetch_books bookT p (imgs content) (cache_page pageT p fs).1).1 := by
      cases hok; rfl
    rw [hr1, fetch_books_read_other _ _ _ _ _ hqbook,
        cache_page_read_other _ _ _ _ hqpage]

theorem cache_page_agree (pageT : Nat → Option String) (p : Nat) (fs g : FS)
    (h : FSAgree p fs g) :
    (cache_page pageT p fs).2 = (cache_page pageT p g).2 ∧
    FSAgree p (cache_page pageT p fs).1 (cache_page pageT p g).1 := by
  have hrd : FS.read fs (CachePath.pageFile p) = FS.read g (CachePath.pageFile p) :=
    h _ rfl
  have hif : FS.isFile fs (CachePath.pageFile p) = FS.isFile g (CachePath.pageFile p) := by
    unfold FS.isFile; rw [hrd]
  unfold cache_page
  rw [hif]
  by_cases hg : FS.isFile g (CachePath.pageFile p)
  · rw [if_pos hg, if_pos hg]; exact ⟨rfl, h⟩
  · rw [if_neg hg, if_neg hg]
    cases hp : pageT p with
    | none => exact ⟨rfl, h⟩
    | some content =>
      dsimp only
      by_cases hc : content.isEmpty
      · rw [if_pos hc, if_pos hc]; exact ⟨rfl, h⟩
      · rw [if_neg hc, if_neg hc]
        refine ⟨rfl, ?_⟩
        intro q hqo
        by_cases hqp : CachePath.pageFile p = q
        · rw [← hqp, FS.read_write_self, FS.read_write_self]
        · rw [FS.read_write_ne _ _ _ _ hqp, FS.read_write_ne _ _ _ _ hqp]
          exact h q hqo

theorem fetch_books_count_agree (bookT : String → Option String) (p : Nat)
    (names : List String) (fs g : FS)
    (h : ∀ n, FS.isFile fs (CachePath.bookFile p n) = FS.isFile g (CachePath.bookFile p n)) :
    (fetch_books bookT p names fs).2 = (fetch_books bookT p names g).2 := by
  unfold fetch_books
  simp only
  congr 1
  exact List.filter_congr (fun n _ => by rw [h n])

/-- The payload a `process_page` task delivers (filenames and call count,
or the raised error) depends only on the page's own region of the
filesystem. -/
theorem process_page_payload_agree (pageT : Nat → Option String)
    (imgs : String → List String) (bookT : String → Option String) (p : Nat)
    (fs g : FS) (h : FSAgree p fs g) :
    payload (process_page pageT imgs bookT p fs)
      = payload (process_page pageT imgs bookT p g) := by
  obtain ⟨hcnt, hag⟩ := cache_page_agree pageT p fs g h
  have hrd : FS.read (cache_page pageT p fs).1 (CachePath.pageFile p)
      = FS.read (cache_page pageT p g).1 (CachePath.pageFile p) := hag _ rfl
  simp only [process_page]
  rw [hrd]
  cases hgr : FS.read (cache_page pageT p g).1 (CachePath.pageFile p) with
  | none => rfl
  | some content =>
    simp only [payload, Except.map]
    have hbooks : (fetch_books bookT p (imgs content) (cache_page pageT p fs).1).2
        = (fetch_books bookT p (imgs content) (cache_page pageT p g).1).2 := by
      refine fetch_books_count_agree _ _ _ _ _ (fun n => ?_)
      unfold FS.isFile
      rw [hag (CachePath.bookFile p n) rfl]
    rw [hcnt, hbooks]

/- ### Scheduler lemmas -/

/-- Whatever completion order the scheduler picks, a gather that finishes
fills slot `k` with the payload that processing target `k` from the
initial filesystem produces, and leaves unscheduled slots alone. -/
theorem run_sched_spec (pageT : Nat → Option String) (imgs : String → List String)
    (bookT : String → Option String) (pages : List Nat) (fs0 : FS)
    (hnd : pages.Nodup) :
    ∀ (sched : List Nat) (fs : FS) (acc : List (Option (List CachePath × Nat))),
      sched.Nodup → acc.length = pages.length →
      (∀ i (hi : i < pages.length), i ∈ sched → FSAgree pages[i] fs fs0) →
      ∀ fs' res,
        run_sched (pages.map (fun p => process_page pageT imgs bookT p)) sched fs acc
          = .ok (fs', res) →
        res.length = pages.length ∧
        (∀ k, k ∉ sched → res[k]? = acc[k]?) ∧
        (∀ k (hk : k < pages.length), k ∈ sched →
          ∃ a, res[k]? = some (some a) ∧
            payload (process_page pageT imgs bookT pages[k] fs0) = .ok a) := by
  intro sched
  induction sched with
  | nil =>
    intro fs acc _ hlen _ fs' res hrun
    simp only [run_sched, Except.ok.injEq, Prod.mk.injEq] at hrun
    obtain ⟨-, hres⟩ := hrun
    subst hres
    exact ⟨hlen, fun k _ => rfl, fun k hk hmem => absurd hmem (List.not_mem_nil k)⟩
  | cons i rest ih =>
    intro fs acc hndr hlen hag fs' res hrun
    have hnir : i ∉ rest := (List.nodup_cons.mp hndr).1
    have hndrest : rest.Nodup := (List.nodup_cons.mp hndr).2
    simp only [run_sched] at hrun
    cases hti : (pages.map (fun p => process_page pageT imgs bookT p)).get? i with
    | none =>
      rw [hti] at hrun
      have hilen : pages.length ≤ i := by
        have := hti
        simp only [List.get?_eq_getElem?, List.getElem?_map] at this
        rcases hpi : pages[i]? with _ | P
        · exact List.getElem?_eq_none_iff.mp hpi
        · rw [hpi] at this; cases this
      obtain ⟨l1, l2, l3⟩ := ih fs acc hndrest hlen
        (fun j hj hmem => hag j hj (List.mem_cons_of_mem i hmem)) fs' res hrun
      refine ⟨l1, fun k hk => l2 k (fun hm => hk (List.mem_cons_of_mem i hm)), ?_⟩
      intro k hk hmem
      rcases List.mem_cons.mp hmem with hki | hkr
      · subst hki; omega
      · exact l3 k hk hkr
    | some t =>
      rw [hti] at hrun
      have hPi : ∃ hi : i < pages.length, t = process_page pageT imgs bookT pages[i] := by
        have := hti
        simp only [List.get?_eq_getElem?, List.getElem?_map] at this
        rcases hpi : pages[i]? with _ | P
        · rw [hpi] at this; cases this
        · rw [hpi] at this
          obtain ⟨hi, hPv⟩ := List.getElem?_eq_some_iff.mp hpi
          exact ⟨hi, by simp at this; rw [← this, hPv]⟩
      obtain ⟨hi, ht⟩ := hPi
      subst ht
      dsimp only at hrun
      cases htf : process_page pageT imgs bookT pages[i] fs with
      | error e => rw [htf] at hrun; simp at hrun
      | ok v =>
        obtain ⟨fsi, ai⟩ := v
        rw [htf] at hrun
        dsimp only at hrun
        have hagrest : ∀ j (hj : j < pages.length), j ∈ rest →
            FSAgree pages[j] fsi fs0 := by
          intro j hj hjr q hqo
          have hne : pages[j] ≠ pages[i] := by
            intro he
            have : j = i := (hnd.getElem_inj_iff).mp he
            exact hnir (this ▸ hjr)
          rw [process_page_writes_own pageT imgs bookT pages[i] fs (fsi, ai) htf q
            (by rw [hqo]; exact hne)]
          exact hag j hj (List.mem_cons_of_mem i hjr) q hqo
        obtain ⟨l1, l2, l3⟩ := ih fsi (acc.set i (some ai)) hndrest
          (by rw [List.length_set]; exact hlen) hagrest fs' res hrun
        refine ⟨l1, ?_, ?_⟩
        · intro k hk
          have hki : k ≠ i := fun he => hk (he ▸ List.mem_cons_self i rest)
          have hkr : k ∉ rest := fun hm => hk (List.mem_cons_of_mem i hm)
          rw [l2 k hkr, List.getElem?_set_ne (Ne.symm hki)]
        · intro k hk hmem
          by_cases hkr : k ∈ rest
          · exact l3 k hk hkr
          · have hki : k = i := by
              rcases List.mem_cons.mp hmem with h | h
              · exact h
              · exact absurd h hkr
            subst hki
            refine ⟨ai, ?_, ?_⟩
            · rw [l2 k hkr, List.getElem?_set_self (by rw [hlen]; exact hi)]
            · have hpl : payload (process_page pageT imgs bookT pages[k] fs) = .ok ai := by
                rw [htf]; rfl
              rw [← process_page_payload_agree pageT imgs bookT pages[k] fs fs0
                (hag k hk (List.mem_cons_self k rest)), hpl]

/-- A gather whose scheduled tasks all succeed without touching the
filesystem finishes with the filesystem unchanged. -/
theorem run_sched_total {α : Type} (tasks : List (FS → Except Unit (FS × α))) :
    ∀ (sched : List Nat) (fs : FS) (acc : List (Option α)),
      (∀ i t, i ∈ sched → tasks.get? i = some t → ∃ a, t fs = .ok (fs, a)) →
      ∃ res, run_sched tasks sched fs acc = .ok (fs, res) := by
  intro sched
  induction sched with
  | nil => intro fs acc _; exact ⟨acc, rfl⟩
  | cons i rest ih =>
    intro fs acc h
    simp only [run_sched]
    cases hti : tasks.get? i with
    | none => exact ih fs acc (fun j t hj => h j t (List.mem_cons_of_mem i hj))
    | some t =>
      obtain ⟨a, ha⟩ := h i t (List.mem_cons_self i rest) hti
      dsimp only
      rw [ha]
      exact ih fs (acc.set i (some a)) (fun j t hj => h j t (List.mem_cons_of_mem i hj))

/- ### Cache-hit and failure lemmas for a single page task -/

/-- A page whose file and whose referenced book files all exist is served
entirely from disk: the filesystem is unchanged, the filenames are
derived from the cached bytes, and zero network calls are made. -/
theorem process_page_cached (pageT : Nat → Option String)
    (imgs : String → List String) (bookT : String → Option String) (p : Nat)
    (fs : FS) (content : String)
    (hpage : FS.read fs (CachePath.pageFile p) = some content)
    (hbooks : ∀ n ∈ imgs content, FS.isFile fs (CachePath.bookFile p n) = true) :
    process_page pageT imgs bookT p fs
      = .ok (fs, (imgs content).map (CachePath.bookFile p), 0) := by
  have hif : FS.isFile fs (CachePath.pageFile p) = true := by
    unfold FS.isFile; rw [hpage]; rfl
  have hcp : cache_page pageT p fs = (fs, 0) := by
    unfold cache_page; rw [if_pos hif]
  have hfilter :
      (imgs content).filter (fun n => !(FS.isFile fs (CachePath.bookFile p n))) = [] := by
    refine List.filter_eq_nil_iff.mpr (fun n hn => ?_)
    rw [hbooks n hn]
    simp
  have hfb : fetch_books bookT p (imgs content) fs = (fs, 0) := by
    unfold fetch_books
    rw [hfilter]
    rfl
  simp only [process_page, hcp]
  rw [show FS.read (fs, 0).1 (CachePath.pageFile p) = some content from hpage]
  dsimp only
  rw [hfb]
  rfl

/-- When the page file is absent and the page transport yields nothing,
`read_html_from_file` returns `None` and `BeautifulSoup(None, "lxml")`
raises: the page task errors. -/
theorem process_page_page_missing (pageT : Nat → Option String)
    (imgs : String → List String) (bookT : String → Option String) (p : Nat)
    (fs : FS) (hnofile : FS.read fs (CachePath.pageFile p) = none)
    (hT : pageT p = none) :
    process_page pageT imgs bookT p fs = .error () := by
  have hif : FS.isFile fs (CachePath.pageFile p) = false := by
    unfold FS.isFile; rw [hnofile]; rfl
  have hcp : cache_page pageT p fs = (fs, 1) := by
    unfold cache_page
    rw [if_neg (by rw [hif]; simp), hT]
  simp only [process_page, hcp]
  rw [show FS.read (fs, 1).1 (CachePath.pageFile p) = none from hnofile]

/-- One page whose transport never delivers, and whose file is absent,
makes the whole gather raise, whatever the completion order: the
scheduled task for that page errors when it runs, and any earlier error
also aborts the gather. -/
theorem run_sched_missing_page_error (pageT : Nat → Option String)
    (imgs : String → List String) (bookT : String → Option String)
    (pages : List Nat) (P : Nat) (hT : pageT P = none) :
    ∀ (sched : List Nat) (fs : FS) (acc : List (Option (List CachePath × Nat)))
      (j : Nat), j ∈ sched → pages.get? j = some P →
      FS.read fs (CachePath.pageFile P) = none →
      run_sched (pages.map (fun p => process_page pageT imgs bookT p)) sched fs acc
        = .error () := by
  intro sched
  induction sched with
  | nil => intro fs acc j hj; exact absurd hj (List.not_mem_nil j)
  | cons i rest ih =>
    intro fs acc j hj hgj hread
    simp only [run_sched]
    cases hti : (pages.map (fun p => process_page pageT imgs bookT p)).get? i with
    | none =>
      have hj' : j ∈ rest := by
        rcases List.mem_cons.mp hj with hji | hjr
        · subst hji
          rw [List.get?_eq_getElem?] at hgj
          rw [List.get?_eq_getElem?, List.getElem?_map, hgj] at hti
          simp at hti
        · exact hjr
      exact ih fs acc j hj' hgj hread
    | some t =>
      have hQi : ∃ hi : i < pages.length, t = process_page pageT imgs bookT pages[i] := by
        have := hti
        simp only [List.get?_eq_getElem?, List.getElem?_map] at this
        rcases hpi : pages[i]? with _ | Q
        · rw [hpi] at this; cases this
        · rw [hpi] at this
          obtain ⟨hi, hQv⟩ := List.getElem?_eq_some_iff.mp hpi
          exact ⟨hi, by simp at this; rw [← this, hQv]⟩
      obtain ⟨hi, ht⟩ := hQi
      subst ht
      dsimp only
      by_cases hQP : pages[i] = P
      · rw [hQP, process_page_page_missing pageT imgs bookT P fs hread hT]
      · cases htf : process_page pageT imgs bookT pages[i] fs with
        | error e => cases e; rfl
        | ok v =>
          obtain ⟨fsi, ai⟩ := v
          have hread' : FS.read fsi (CachePath.pageFile P) = none := by
            rw [process_page_writes_own pageT imgs bookT pages[i] fs (fsi, ai) htf
              (CachePath.pageFile P) (fun he => hQP he.symm), hread]
          have hj' : j ∈ rest := by
            rcases List.mem_cons.mp hj with hji | hjr
            · subst hji
              rw [List.get?_eq_getElem?] at hgj
              have : pages[j] = P := (List.getElem?_eq_some_iff.mp hgj).2
              exact absurd this hQP
            · exact hjr
          exact ih fsi (acc.set i (some ai)) j hj' hgj hread'

/- ### CSV writers -/

/-- Log events of the file_utils CSV writer. -/
inductive CsvLog where
  | warnNoData : CsvLog
  | savedTo (filename : String) : CsvLog
deriving DecidableEq, Repr

/-- One `csv.DictWriter` output row: the record's values in fieldname
order (`restval` default for a missing key). -/
def csvRow (fields : List String) (rec : List (String × String)) : List String :=
  fields.map (fun f => (rec.lookup f).getD "")

/-- `save_to_csv(data, filename)` (src/utils/file_utils.py, lines 38-56):
an empty list logs a warning and skips the write; otherwise a
`DictWriter` over `data[0].keys()` writes the header row and then every
record.  Returns the written rows (`none` when no file is produced) and
the log. -/
def save_to_csv (data : List (List (String × String))) (filename : String) :
    Option (List (List String)) × List CsvLog :=
  match data with
  | [] => (none, [.warnNoData])
  | first :: _ =>
    let fields := first.map Prod.fst
    (some (fields :: data.map (csvRow fields)), [.savedTo filename])

/-- `write_to_csv(data, filename)` (src/books/sync.py, lines 87-99): no
emptiness guard, so `data[0].keys()` raises `IndexError` on an empty
list; otherwise header plus records as above. -/
def write_to_csv (data : List (List (String × String))) :
    Except String (List (List String)) :=
  match data with
  | [] => .error "IndexError: list index out of range"
  | first :: _ =>
    let fields := first.map Prod.fst
    .ok (fields :: data.map (csvRow fields))

/- ### Error-kind indifference of the retry loop -/

/-- The retry loop's observable behaviour depends only on the
success/failure pattern of the transport, not on which network error
occurred: the `except (aiohttp.ClientError, asyncio.TimeoutError)` clause
treats every caught error alike. -/
theorem fetch_aux_obs_congr (t t' : Nat → Outcome) (url : String)
    (retries : Int) (delay : Nat)
    (hagree : ∀ i, match t i, t' i with
      | .success a, .success b => a = b
      | .fail _, .fail _ => True
      | _, _ => False) :
    ∀ (fuel attempt : Nat) (tr tr' : FetchTrace),
      tr.result = tr'.result → tr.attempts = tr'.attempts →
      tr.sleeps = tr'.sleeps → tr.waited = tr'.waited →
      observables (fetch_aux t url retries delay fuel attempt tr)
        = observables (fetch_aux t' url retries delay fuel attempt tr') := by
  intro fuel
  induction fuel with
  | zero =>
    intro attempt tr tr' h1 h2 h3 h4
    simp [fetch_aux, observables, h2, h3, h4]
  | succ f ih =>
    intro attempt tr tr' h1 h2 h3 h4
    have hag := hagree attempt
    simp only [fetch_aux]
    cases ht : t attempt with
    | success a =>
      cases ht' : t' attempt with
      | success b =>
        rw [ht, ht'] at hag
        simp only at hag
        simp [observables, h2, h3, h4, hag]
      | fail e => rw [ht, ht'] at hag; simp only at hag
    | fail e =>
      cases ht' : t' attempt with
      | success b => rw [ht, ht'] at hag; simp only at hag
      | fail e' =>
        dsimp only
        by_cases hlt : ((attempt + 1 : Nat) : Int) < retries
        · rw [if_pos hlt, if_pos hlt]
          exact ih (attempt + 1) _ _ (by simp [h1]) (by simp [h2]) (by simp [h3])
            (by simp [h4])
        · rw [if_neg hlt, if_neg hlt]
          simp [observables, h2, h3, h4]

/- ### Claim theorems -/

/-- Claim C1: for a target whose transport fails on every attempt,
`fetch_with_retry` with retry count `R ≥ 1` and delay `D` issues exactly
`R` request attempts, sleeps exactly `R - 1` times for `D` seconds each
(total backoff wait `(R - 1) * D`), and returns its terminal-failure
value `None`. -/
theorem fetch_retry_budget (transport : Nat → Outcome) (errs : Nat → ErrKind)
    (url : String) (R : Int) (D : Nat)
    (hfail : ∀ i, transport i = .fail (errs i)) (hR : 1 ≤ R) :
    (fetch_with_retry transport url R D).result = none ∧
    (fetch_with_retry transport url R D).attempts = R.toNat ∧
    (fetch_with_retry transport url R D).sleeps = R.toNat - 1 ∧
    (fetch_with_retry transport url R D).waited = (R.toNat - 1) * D := by
  unfold fetch_with_retry
  obtain ⟨h1, h2, h3, h4⟩ := fetch_aux_allfail transport errs url R D hfail R.toNat 0
    { result := none, attempts := 0, sleeps := 0, waited := 0, log := [] }
    (by omega) (by push_cast; omega)
  exact ⟨h1, by simpa using h2, by simpa using h3, by simpa using h4⟩

/-- Witness for C1 at the source defaults `retries = 3`, `delay = 5` and
an always-timing-out transport: 3 attempts, 2 sleeps, 10 seconds of
backoff, `None` returned. -/
theorem fetch_retry_budget_witness :
    (fetch_with_retry (fun _ => Outcome.fail ErrKind.timeout) "u" 3 5).result = none ∧
    (fetch_with_retry (fun _ => Outcome.fail ErrKind.timeout) "u" 3 5).attempts = 3 ∧
    (fetch_with_retry (fun _ => Outcome.fail ErrKind.timeout) "u" 3 5).sleeps = 2 ∧
    (fetch_with_retry (fun _ => Outcome.fail ErrKind.timeout) "u" 3 5).waited = 10 :=
  fetch_retry_budget (fun _ => Outcome.fail ErrKind.timeout) (fun _ => ErrKind.timeout)
    "u" 3 5 (fun _ => rfl) (by omega)

/-- Counterexample to claim C2 as stated: the terminal-failure value
returned after exhausting retries is the bare `None`, identical for two
transports whose last observed errors are different, so the returned
value carries no error information. -/
theorem fetch_terminal_value_carries_no_error :
    (fetch_with_retry (fun _ => Outcome.fail ErrKind.timeout) "u" 3 5).result
      = (fetch_with_retry (fun _ => Outcome.fail (ErrKind.connError "refused")) "u" 3 5).result ∧
    (fetch_with_retry (fun _ => Outcome.fail ErrKind.timeout) "u" 3 5).result = none ∧
    ErrKind.timeout ≠ ErrKind.connError "refused" :=
  ⟨rfl, rfl, by decide⟩

/-- Claim C2 (amended): after the retry budget is exhausted,
`fetch_with_retry` returns the terminal-failure value `None` (which
itself carries no error; the last observed error is recorded in the
log by the final attempt-failure entry), and no network-layer failure
escapes as an exception — every timeout, connection error and non-2xx
status is a caught outcome of the loop. -/
theorem fetch_terminal_failure (transport : Nat → Outcome) (errs : Nat → ErrKind)
    (url : String) (R : Int) (D : Nat)
    (hfail : ∀ i, transport i = .fail (errs i)) (hR : 1 ≤ R) :
    (fetch_with_retry transport url R D).result = none ∧
    LogEvent.attemptFailed R.toNat R url (errs (R.toNat - 1))
      ∈ (fetch_with_retry transport url R D).log := by
  unfold fetch_with_retry
  refine ⟨(fetch_aux_allfail transport errs url R D hfail R.toNat 0
    { result := none, attempts := 0, sleeps := 0, waited := 0, log := [] }
    (by omega) (by push_cast; omega)).1, ?_⟩
  have h := fetch_aux_lastErr_mem transport errs url R D hfail R.toNat 0
    { result := none, attempts := 0, sleeps := 0, waited := 0, log := [] }
    (by omega) (by push_cast; omega)
  simpa using h

/-- Witness for the amended C2: three attempts failing with statuses
500, 501, 502; the result is `None` and the log holds the final
attempt's failure entry carrying the last error (502). -/
theorem fetch_terminal_failure_witness :
    (fetch_with_retry (fun i => Outcome.fail (ErrKind.httpError (500 + i))) "u" 3 5).result
      = none ∧
    LogEvent.attemptFailed 3 3 "u" (ErrKind.httpError 502)
      ∈ (fetch_with_retry (fun i => Outcome.fail (ErrKind.httpError (500 + i))) "u" 3 5).log := by
  have h := fetch_terminal_failure (fun i => Outcome.fail (ErrKind.httpError (500 + i)))
    (fun i => ErrKind.httpError (500 + i)) "u" 3 5 (fun _ => rfl) (by omega)
  simpa using h

/-- Claim C8: a 4xx client-error status is treated identically to a
transient failure: the observable behaviour (returned value, attempt
count, sleep count, total wait) over an always-4xx transport equals the
behaviour over an always-timeout transport, and the request is retried
up to the configured limit (`R` attempts) rather than failing fast. -/
theorem fetch_4xx_retried_like_transient (s : Nat) (url : String) (R : Int) (D : Nat)
    (h4a : 400 ≤ s) (h4b : s < 500) :
    observables (fetch_with_retry (fun _ => Outcome.fail (ErrKind.httpError s)) url R D)
      = observables (fetch_with_retry (fun _ => Outcome.fail ErrKind.timeout) url R D) ∧
    (1 ≤ R →
      (fetch_with_retry (fun _ => Outcome.fail (ErrKind.httpError s)) url R D).attempts
        = R.toNat) := by
  constructor
  · unfold fetch_with_retry
    exact fetch_aux_obs_congr _ _ url R D (fun i => trivial) R.toNat 0 _ _ rfl rfl rfl rfl
  · intro hR
    have h := (fetch_aux_allfail (fun _ => Outcome.fail (ErrKind.httpError s))
      (fun _ => ErrKind.httpError s) url R D (fun _ => rfl) R.toNat 0
      { result := none, attempts := 0, sleeps := 0, waited := 0, log := [] }
      (by omega) (by push_cast; omega)).2.1
    unfold fetch_with_retry
    simpa using h

/-- Witness for C8 at a 404 with the source defaults: same observables
as a timeout, and exactly 3 attempts. -/
theorem fetch_4xx_retried_like_transient_witness :
    observables (fetch_with_retry (fun _ => Outcome.fail (ErrKind.httpError 404)) "u" 3 5)
      = observables (fetch_with_retry (fun _ => Outcome.fail ErrKind.timeout) "u" 3 5) ∧
    (fetch_with_retry (fun _ => Outcome.fail (ErrKind.httpError 404)) "u" 3 5).attempts = 3 := by
  have h := fetch_4xx_retried_like_transient 404 "u" 3 5 (by omega) (by omega)
  exact ⟨h.1, h.2 (by omega)⟩

/-- Claim C10: with a retry count `R ≤ 0` the `while attempt < retries`
guard fails immediately: `fetch_with_retry` returns `None` having made
no request, no sleep, and no log entry. -/
theorem fetch_nonpositive_retries (transport : Nat → Outcome) (url : String)
    (R : Int) (D : Nat) (hR : R ≤ 0) :
    fetch_with_retry transport url R D
      = { result := none, attempts := 0, sleeps := 0, waited := 0, log := [] } := by
  unfold fetch_with_retry
  rw [show R.toNat = 0 from by omega]
  rfl

/-- Witness for C10 at `retries = 0` over a transport that would
succeed: still no attempt is made. -/
theorem fetch_nonpositive_retries_witness :
    fetch_with_retry (fun _ => Outcome.success "body") "u" 0 5
      = { result := none, attempts := 0, sleeps := 0, waited := 0, log := [] } :=
  fetch_nonpositive_retries (fun _ => Outcome.success "body") "u" 0 5 (by omega)

/- Concrete transports and filesystems used by closed instances. -/

/-- A page transport that always times out on page 3 and delivers
everywhere else. -/
def pageTimeout3 : Nat → Option String := fun p => if p = 3 then none else some "html"

/-- A page transport that always delivers. -/
def constPage : Nat → Option String := fun _ => some "html"

/-- A page transport that always times out. -/
def noPage : Nat → Option String := fun _ => none

/-- A parser finding no image containers on any page. -/
def noImgs : String → List String := fun _ => []

/-- A parser finding one book link on every page. -/
def oneBookImgs : String → List String := fun _ => ["a-book"]

/-- A book transport that always delivers. -/
def constBook : String → Option String := fun _ => some "book-html"

/-- A book transport that always times out. -/
def noBook : String → Option String := fun _ => none

/-- Counterexample to claim C3 as stated: five targets, target #3's
transport always times out, the other four succeed — the crawl does not
return five per-item-marked results; the exception raised while parsing
the missing page propagates out of the gather and the whole batch
aborts. -/
theorem crawl_batch_aborts_counterexample :
    crawl pageTimeout3 noImgs constBook [1, 2, 3, 4, 5] [0, 1, 2, 3, 4] [] = .error () := rfl

/-- Claim C3 (amended): the failure of one item does abort the crawl of
the whole batch: whenever some scheduled target's page file is absent
and its transport never delivers, `crawl` raises (returns the propagated
error) instead of returning per-item results, whatever the completion
order. -/
theorem crawl_batch_aborts_on_failed_item (pageT : Nat → Option String)
    (imgs : String → List String) (bookT : String → Option String)
    (pages sched : List Nat) (fs : FS) (j P : Nat)
    (hj : j ∈ sched) (hgj : pages.get? j = some P) (hT : pageT P = none)
    (hread : FS.read fs (CachePath.pageFile P) = none) :
    crawl pageT imgs bookT pages sched fs = .error () := by
  unfold crawl
  exact run_sched_missing_page_error pageT imgs bookT pages P hT sched fs _ j hj hgj hread

/-- Witness for the amended C3 under a different completion order: the
batch still aborts. -/
theorem crawl_batch_aborts_witness :
    crawl pageTimeout3 noImgs constBook [1, 2, 3, 4, 5] [4, 3, 2, 1, 0] [] = .error () :=
  crawl_batch_aborts_on_failed_item pageTimeout3 noImgs constBook [1, 2, 3, 4, 5]
    [4, 3, 2, 1, 0] [] 2 3 (by decide) rfl rfl rfl

/-- Claim C4: a target whose cache file already exists is served with
zero network calls — for every page transport and book transport alike,
so the result cannot depend on the network — and the bytes consumed are
exactly the cached ones: the filesystem is returned unchanged and the
output is derived from the cached `content`. -/
theorem crawl_cache_hit (pageT : Nat → Option String) (imgs : String → List String)
    (bookT : String → Option String) (p : Nat) (fs : FS) (content : String)
    (hpage : FS.read fs (CachePath.pageFile p) = some content)
    (hbooks : ∀ n ∈ imgs content, FS.isFile fs (CachePath.bookFile p n) = true) :
    process_page pageT imgs bookT p fs
      = .ok (fs, (imgs content).map (CachePath.bookFile p), 0) :=
  process_page_cached pageT imgs bookT p fs content hpage hbooks

/-- A filesystem holding one cached page and its one cached book. -/
def cachedFS : FS :=
  [(CachePath.pageFile 1, "page-html"), (CachePath.bookFile 1 "a-book", "book-html")]

/-- Witness for C4: the fully cached page-1 target is processed with
zero calls against transports that would fail every request. -/
theorem crawl_cache_hit_witness :
    process_page noPage oneBookImgs noBook 1 cachedFS
      = .ok (cachedFS, [CachePath.bookFile 1 "a-book"], 0) :=
  crawl_cache_hit noPage oneBookImgs noBook 1 cachedFS "page-html" rfl (by decide)

/-- Claim C5: a crawl batch that returns does so with one slot per input
target, and slot `k` holds exactly the payload of processing target `k`
from the initial filesystem — independent of the completion order
`sched`, which may be any permutation of the task indices. -/
theorem crawl_preserves_length_and_order (pageT : Nat → Option String)
    (imgs : String → List String) (bookT : String → Option String)
    (pages sched : List Nat) (fs0 fs' : FS)
    (res : List (Option (List CachePath × Nat)))
    (hnd : pages.Nodup) (hperm : sched.Perm (List.range pages.length))
    (hok : crawl pageT imgs bookT pages sched fs0 = .ok (fs', res)) :
    res.length = pages.length ∧
    ∀ k (hk : k < pages.length), ∃ a, res[k]? = some (some a) ∧
      payload (process_page pageT imgs bookT pages[k] fs0) = .ok a := by
  unfold crawl at hok
  have hnds : sched.Nodup := hperm.nodup_iff.mpr (List.nodup_range _)
  have hmem : ∀ k, k ∈ sched ↔ k < pages.length := by
    intro k; rw [hperm.mem_iff, List.mem_range]
  obtain ⟨l1, l2, l3⟩ := run_sched_spec pageT imgs bookT pages fs0 hnd sched fs0
    (List.replicate pages.length none) hnds (List.length_replicate _ _)
    (fun i hi hm q hq => rfl) fs' res hok
  exact ⟨l1, fun k hk => l3 k hk ((hmem k).mpr hk)⟩

/-- Witness for C5: two pages crawled under the reversed completion
order `[1, 0]` still produce two slots in input order, each the payload
of its own target. -/
theorem crawl_preserves_length_and_order_witness :
    ([some (([] : List CachePath), 1), some ([], 1)]
        : List (Option (List CachePath × Nat))).length = ([1, 2] : List Nat).length ∧
    ∀ k (hk : k < ([1, 2] : List Nat).length), ∃ a,
      ([some (([] : List CachePath), 1), some ([], 1)]
        : List (Option (List CachePath × Nat)))[k]? = some (some a) ∧
      payload (process_page constPage noImgs constBook (([1, 2] : List Nat)[k]) [])
        = .ok a :=
  crawl_preserves_length_and_order constPage noImgs constBook [1, 2] [1, 0] []
    [(CachePath.pageFile 1, "html"), (CachePath.pageFile 2, "html")]
    [some ([], 1), some ([], 1)] (by decide) (by decide) rfl

/- ### Per-target write policy (claim C6) -/

theorem fetch_books_foldl_not_mem (bookT : String → Option String) (p : Nat) :
    ∀ (l : List String) (fs : FS) (n : String), n ∉ l →
      FS.read (l.foldl
        (fun acc m =>
          fetch_and_save_book bookT (BASE_URL ++ "catalogue/" ++ m)
            (CachePath.bookFile p m) acc) fs) (CachePath.bookFile p n)
        = FS.read fs (CachePath.bookFile p n) := by
  intro l
  induction l with
  | nil => intro fs n _; rfl
  | cons m rest ih =>
    intro fs n hn
    have hnm : n ≠ m := fun he => hn (he ▸ List.mem_cons_self m rest)
    have hnr : n ∉ rest := fun hr => hn (List.mem_cons_of_mem m hr)
    simp only [List.foldl_cons]
    rw [ih _ _ hnr]
    unfold fetch_and_save_book
    cases bookT (BASE_URL ++ "catalogue/" ++ m) with
    | none => rfl
    | some text =>
      refine FS.read_write_ne _ _ _ _ (fun he => ?_)
      injection he with _ h
      exact hnm h.symm

theorem fetch_books_foldl_mem (bookT : String → Option String) (p : Nat) :
    ∀ (l : List String) (fs : FS) (n : String), n ∈ l →
      (∀ t, bookT (BASE_URL ++ "catalogue/" ++ n) = some t →
        FS.read (l.foldl
          (fun acc m =>
            fetch_and_save_book bookT (BASE_URL ++ "catalogue/" ++ m)
              (CachePath.bookFile p m) acc) fs) (CachePath.bookFile p n) = some t) ∧
      (bookT (BASE_URL ++ "catalogue/" ++ n) = none →
        FS.read (l.foldl
          (fun acc m =>
            fetch_and_save_book bookT (BASE_URL ++ "catalogue/" ++ m)
              (CachePath.bookFile p m) acc) fs) (CachePath.bookFile p n)
          = FS.read fs (CachePath.bookFile p n)) := by
  intro l
  induction l with
  | nil => intro fs n hn; exact absurd hn (List.not_mem_nil n)
  | cons m rest ih =>
    intro fs n hn
    simp only [List.foldl_cons]
    by_cases hnr : n ∈ rest
    · obtain ⟨ihs, ihf⟩ := ih (fetch_and_save_book bookT
        (BASE_URL ++ "catalogue/" ++ m) (CachePath.bookFile p m) fs) n hnr
      refine ⟨ihs, fun hnone => ?_⟩
      rw [ihf hnone]
      cases hb : bookT (BASE_URL ++ "catalogue/" ++ m) with
      | none =>
        have hstep : fetch_and_save_book bookT (BASE_URL ++ "catalogue/" ++ m)
            (CachePath.bookFile p m) fs = fs := by
          unfold fetch_and_save_book; rw [hb]
        rw [hstep]
      | some tm =>
        have hstep : fetch_and_save_book bookT (BASE_URL ++ "catalogue/" ++ m)
            (CachePath.bookFile p m) fs
            = FS.write fs (CachePath.bookFile p m) tm := by
          unfold fetch_and_save_book; rw [hb]
        rw [hstep]
        refine FS.read_write_ne _ _ _ _ (fun he => ?_)
        have hmn : m = n := by simpa using he
        subst hmn
        exact absurd (hb.symm.trans hnone) (by simp)
    · have hnm : n = m := by
        rcases List.mem_cons.mp hn with h | h
        · exact h
        · exact absurd h hnr
      subst hnm
      cases hb : bookT (BASE_URL ++ "catalogue/" ++ n) with
      | none =>
        refine ⟨fun t ht => absurd ht (by simp), fun _ => ?_⟩
        have hstep : fetch_and_save_book bookT (BASE_URL ++ "catalogue/" ++ n)
            (CachePath.bookFile p n) fs = fs := by
          unfold fetch_and_save_book; rw [hb]
        rw [hstep]
        exact fetch_books_foldl_not_mem bookT p rest fs n hnr
      | some t0 =>
        refine ⟨fun t ht => ?_, fun hnone => absurd hnone (by simp)⟩
        have ht0 : t0 = t := Option.some.inj ht
        subst ht0
        have hstep : fetch_and_save_book bookT (BASE_URL ++ "catalogue/" ++ n)
            (CachePath.bookFile p n) fs
            = FS.write fs (CachePath.bookFile p n) t0 := by
          unfold fetch_and_save_book; rw [hb]
        rw [hstep, fetch_books_foldl_not_mem bookT p rest _ n hnr]
        exact FS.read_write_self _ _ _

/-- A page transport that succeeds with an empty body: the network call
returns, but `if page_content:` is falsy. -/
def emptyPage : Nat → Option String := fun _ => some ""

/-- Counterexample to claim C6 as stated: a successful page fetch whose
body is empty is not written to the target's cache path — the
`if page_content:` truthiness guard skips the write, leaving the
filesystem unchanged and the page file absent. -/
theorem page_success_empty_body_not_cached :
    emptyPage 1 = some "" ∧
    (cache_page emptyPage 1 []).1 = ([] : FS) ∧
    FS.read (cache_page emptyPage 1 []).1 (CachePath.pageFile 1) = none :=
  ⟨rfl, rfl, rfl⟩

/-- Claim C6 (amended): a failed fetch writes nothing to the target's
cache path, so the path stays absent and the target is fetched again on
the next process run; a successful fetch result is written to the cache
path before being returned — the book body unconditionally, the page
body only when it is truthy: a successful page fetch with an empty body
is skipped by the `if page_content:` guard and also leaves the path
absent. -/
theorem cache_write_policy (pageT : Nat → Option String)
    (imgs : String → List String) (bookT : String → Option String)
    (p : Nat) (fs : FS) :
    (∀ body, FS.isFile fs (CachePath.pageFile p) = false → pageT p = some body →
      body.isEmpty = false →
      FS.read (cache_page pageT p fs).1 (CachePath.pageFile p) = some body) ∧
    (∀ body, FS.isFile fs (CachePath.pageFile p) = false → pageT p = some body →
      body.isEmpty = true →
      (cache_page pageT p fs).1 = fs) ∧
    (FS.isFile fs (CachePath.pageFile p) = false → pageT p = none →
      (cache_page pageT p fs).1 = fs) ∧
    (∀ content n r, FS.read fs (CachePath.pageFile p) = some content →
      n ∈ imgs content → FS.isFile fs (CachePath.bookFile p n) = false →
      process_page pageT imgs bookT p fs = .ok r →
      (∀ t, bookT (BASE_URL ++ "catalogue/" ++ n) = some t →
        FS.read r.1 (CachePath.bookFile p n) = some t) ∧
      (bookT (BASE_URL ++ "catalogue/" ++ n) = none →
        FS.read r.1 (CachePath.bookFile p n) = none)) := by
  refine ⟨?_, ?_, ?_, ?_⟩
  · intro body hmiss hsome hne
    unfold cache_page
    rw [if_neg (by rw [hmiss]; simp), hsome]
    dsimp only
    rw [if_neg (by rw [hne]; simp)]
    exact FS.read_write_self _ _ _
  · intro body hmiss hsome hemp
    unfold cache_page
    rw [if_neg (by rw [hmiss]; simp), hsome]
    dsimp only
    rw [if_pos hemp]
  · intro hmiss hnone
    unfold cache_page
    rw [if_neg (by rw [hmiss]; simp), hnone]
  · intro content n r hpage hn hbf hok
    have hif : FS.isFile fs (CachePath.pageFile p) = true := by
      unfold FS.isFile; rw [hpage]; rfl
    have hcp : cache_page pageT p fs = (fs, 0) := by
      unfold cache_page; rw [if_pos hif]
    simp only [process_page, hcp] at hok
    rw [show FS.read (fs, 0).1 (CachePath.pageFile p) = some content from hpage] at hok
    dsimp only at hok
    have hr1 : r.1 = (fetch_books bookT p (imgs content) fs).1 := by
      cases hok; rfl
    have hmemf : n ∈ (imgs content).filter
        (fun m => !(FS.isFile fs (CachePath.bookFile p m))) := by
      refine List.mem_filter.mpr ⟨hn, ?_⟩
      rw [hbf]
      rfl
    have hreadn : FS.read fs (CachePath.bookFile p n) = none := by
      unfold FS.isFile at hbf
      cases h : FS.read fs (CachePath.bookFile p n) with
      | none => rfl
      | some v => rw [h] at hbf; cases hbf
    obtain ⟨hs, hf⟩ := fetch_books_foldl_mem bookT p
      ((imgs content).filter (fun m => !(FS.isFile fs (CachePath.bookFile p m))))
      fs n hmemf
    rw [hr1]
    unfold fetch_books
    exact ⟨fun t ht => hs t ht, fun hnone => by rw [hf hnone, hreadn]⟩

/-- Witness for the amended C6: a successful non-empty page write lands
in the page file; a successful empty page body is skipped; a timed-out
page leaves the filesystem unchanged; a fetched book is readable at its
cache path; a timed-out book leaves its cache path absent. -/
theorem cache_write_policy_witness :
    FS.read (cache_page constPage 1 []).1 (CachePath.pageFile 1) = some "html" ∧
    (cache_page emptyPage 1 []).1 = ([] : FS) ∧
    (cache_page noPage 1 []).1 = ([] : FS) ∧
    FS.read [(CachePath.bookFile 1 "a-book", "book-html"),
      (CachePath.pageFile 1, "page-html")] (CachePath.bookFile 1 "a-book")
      = some "book-html" ∧
    FS.read [(CachePath.pageFile 1, "page-html")] (CachePath.bookFile 1 "a-book")
      = none := by
  refine ⟨?_, ?_, ?_, ?_, ?_⟩
  · exact (cache_write_policy constPage noImgs constBook 1 []).1 "html" rfl rfl rfl
  · exact (cache_write_policy emptyPage noImgs constBook 1 []).2.1 "" rfl rfl rfl
  · exact (cache_write_policy noPage noImgs constBook 1 []).2.2.1 rfl rfl
  · exact ((cache_write_policy noPage oneBookImgs constBook 1
      [(CachePath.pageFile 1, "page-html")]).2.2.2 "page-html" "a-book"
      ([(CachePath.bookFile 1 "a-book", "book-html"),
        (CachePath.pageFile 1, "page-html")], [CachePath.bookFile 1 "a-book"], 1)
      rfl (by decide) rfl rfl).1 "book-html" rfl
  · exact ((cache_write_policy noPage oneBookImgs noBook 1
      [(CachePath.pageFile 1, "page-html")]).2.2.2 "page-html" "a-book"
      ([(CachePath.pageFile 1, "page-html")], [CachePath.bookFile 1 "a-book"], 1)
      rfl (by decide) rfl rfl).2 rfl

/-- Claim C7: on a fully populated cache, a crawl returns the filesystem
unchanged with every slot's network-call count zero, and a second run —
under any completion order — returns byte-identical output. -/
theorem crawl_idempotent_on_cached (pageT : Nat → Option String)
    (imgs : String → List String) (bookT : String → Option String)
    (pages sched sched' : List Nat) (fs0 : FS)
    (hnd : pages.Nodup)
    (hperm : sched.Perm (List.range pages.length))
    (hperm' : sched'.Perm (List.range pages.length))
    (hcache : ∀ p ∈ pages, ∃ content,
      FS.read fs0 (CachePath.pageFile p) = some content ∧
      ∀ n ∈ imgs content, FS.isFile fs0 (CachePath.bookFile p n) = true) :
    ∃ res, crawl pageT imgs bookT pages sched fs0 = .ok (fs0, res) ∧
      crawl pageT imgs bookT pages sched' fs0 = .ok (fs0, res) ∧
      ∀ x ∈ res, ∀ nc : List CachePath × Nat, x = some nc → nc.2 = 0 := by
  have htask : ∀ (i : Nat) (t : FS → Except Unit (FS × (List CachePath × Nat))),
      (pages.map (fun p => process_page pageT imgs bookT p)).get? i = some t →
      ∃ a, t fs0 = .ok (fs0, a) := by
    intro i t hti
    rw [List.get?_eq_getElem?, List.getElem?_map] at hti
    rcases hpi : pages[i]? with _ | P
    · rw [hpi] at hti; cases hti
    · rw [hpi] at hti
      have hPt : process_page pageT imgs bookT P = t := by simpa using hti
      obtain ⟨c, hc1, hc2⟩ := hcache P (List.getElem?_mem hpi)
      exact ⟨((imgs c).map (CachePath.bookFile P), 0), by
        rw [← hPt]; exact process_page_cached pageT imgs bookT P fs0 c hc1 hc2⟩
  obtain ⟨res, hrun⟩ := run_sched_total
    (pages.map (fun p => process_page pageT imgs bookT p)) sched fs0
    (List.replicate pages.length none) (fun i t _ hti => htask i t hti)
  obtain ⟨res', hrun'⟩ := run_sched_total
    (pages.map (fun p => process_page pageT imgs bookT p)) sched' fs0
    (List.replicate pages.length none) (fun i t _ hti => htask i t hti)
  have hnds : sched.Nodup := hperm.nodup_iff.mpr (List.nodup_range _)
  have hnds' : sched'.Nodup := hperm'.nodup_iff.mpr (List.nodup_range _)
  have hmemS : ∀ k, k ∈ sched ↔ k < pages.length := fun k => by
    rw [hperm.mem_iff, List.mem_range]
  have hmemS' : ∀ k, k ∈ sched' ↔ k < pages.length := fun k => by
    rw [hperm'.mem_iff, List.mem_range]
  obtain ⟨l1, l2, l3⟩ := run_sched_spec pageT imgs bookT pages fs0 hnd sched fs0
    (List.replicate pages.length none) hnds (List.length_replicate _ _)
    (fun i hi hm q hq => rfl) fs0 res hrun
  obtain ⟨l1', l2', l3'⟩ := run_sched_spec pageT imgs bookT pages fs0 hnd sched' fs0
    (List.replicate pages.length none) hnds' (List.length_replicate _ _)
    (fun i hi hm q hq => rfl) fs0 res' hrun'
  have hslots : ∀ k : Nat, res[k]? = res'[k]? := by
    intro k
    by_cases hk : k < pages.length
    · obtain ⟨a, ha1, ha2⟩ := l3 k hk ((hmemS k).mpr hk)
      obtain ⟨a', ha1', ha2'⟩ := l3' k hk ((hmemS' k).mpr hk)
      have haa : a = a' := by simpa using ha2.symm.trans ha2'
      rw [ha1, ha1', haa]
    · rw [l2 k (fun hm => hk ((hmemS k).mp hm)),
          l2' k (fun hm => hk ((hmemS' k).mp hm))]
  have hres : res = res' := List.ext_getElem? hslots
  subst hres
  refine ⟨res, hrun, hrun', ?_⟩
  intro x hx nc hxnc
  subst hxnc
  obtain ⟨k, hk⟩ := List.mem_iff_getElem?.mp hx
  by_cases hklen : k < pages.length
  · obtain ⟨a, ha1, ha2⟩ := l3 k hklen ((hmemS k).mpr hklen)
    rw [ha1] at hk
    have hna : nc = a := by have h := hk; simp at h; exact h.symm
    obtain ⟨c, hc1, hc2⟩ := hcache (pages[k])
      (List.getElem?_mem (List.getElem?_eq_getElem hklen))
    have hpl : payload (process_page pageT imgs bookT pages[k] fs0)
        = .ok ((imgs c).map (CachePath.bookFile pages[k]), 0) := by
      rw [process_page_cached pageT imgs bookT pages[k] fs0 c hc1 hc2]
      rfl
    have ha0 : a = ((imgs c).map (CachePath.bookFile pages[k]), 0) := by
      simpa using ha2.symm.trans hpl
    rw [hna, ha0]
  · rw [l2 k (fun hm => hklen ((hmemS k).mp hm))] at hk
    rw [List.getElem?_eq_none (by rw [List.length_replicate]; omega)] at hk
    cases hk

/-- A filesystem with the two pages of the witness batch cached. -/
def cachedPagesFS : FS := [(CachePath.pageFile 1, "h1"), (CachePath.pageFile 2, "h2")]

/-- Witness for C7: a fully cached two-page batch crawled under the two
opposite completion orders yields the same output, the same (unchanged)
filesystem, and zero network calls per slot. -/
theorem crawl_idempotent_witness :
    ∃ res, crawl noPage noImgs noBook [1, 2] [0, 1] cachedPagesFS
        = .ok (cachedPagesFS, res) ∧
      crawl noPage noImgs noBook [1, 2] [1, 0] cachedPagesFS
        = .ok (cachedPagesFS, res) ∧
      ∀ x ∈ res, ∀ nc : List CachePath × Nat, x = some nc → nc.2 = 0 :=
  crawl_idempotent_on_cached noPage noImgs noBook [1, 2] [0, 1] [1, 0] cachedPagesFS
    (by decide) (by decide) (by decide)
    (by
      intro p hp
      fin_cases hp
      · exact ⟨"h1", rfl, fun n hn => absurd hn (List.not_mem_nil n)⟩
      · exact ⟨"h2", rfl, fun n hn => absurd hn (List.not_mem_nil n)⟩)

/-- Counterexample to claim C9 as stated: the books/sync CSV writer has
no emptiness guard — `data[0].keys()` raises `IndexError` on an empty
record list instead of logging a warning and skipping the write. -/
theorem write_to_csv_empty_raises :
    write_to_csv [] = .error "IndexError: list index out of range" := rfl

/-- Claim C9 (amended): the file_utils CSV writer logs a warning and
skips the write on an empty record list and writes a header plus one row
per record otherwise; the books/sync CSV writer behaves the same on
non-empty input but raises `IndexError` on an empty list. -/
theorem csv_writer_empty_guard (filename : String)
    (data : List (List (String × String))) :
    (data = [] → save_to_csv data filename = (none, [CsvLog.warnNoData]) ∧
      write_to_csv data = .error "IndexError: list index out of range") ∧
    (data ≠ [] → ∃ rows, save_to_csv data filename
        = (some rows, [CsvLog.savedTo filename]) ∧
      rows.length = data.length + 1 ∧ write_to_csv data = .ok rows) := by
  constructor
  · intro h; subst h; exact ⟨rfl, rfl⟩
  · intro h
    cases data with
    | nil => exact absurd rfl h
    | cons first rest =>
      refine ⟨(first.map Prod.fst) ::
        (first :: rest).map (csvRow (first.map Prod.fst)), rfl, ?_, rfl⟩
      simp

/-- Witness for the amended C9: the empty list is skipped with a warning
by `save_to_csv` and raises in `write_to_csv`; a one-record list yields
a header plus one row from both writers. -/
theorem csv_writer_empty_guard_witness :
    (save_to_csv [] "books.csv" = (none, [CsvLog.warnNoData]) ∧
      write_to_csv ([] : List (List (String × String)))
        = .error "IndexError: list index out of range") ∧
    ∃ rows, save_to_csv [[("name", "b1")]] "books.csv"
        = (some rows, [CsvLog.savedTo "books.csv"]) ∧
      rows.length = 2 ∧ write_to_csv [[("name", "b1")]] = .ok rows := by
  constructor
  · exact (csv_writer_empty_guard "books.csv" []).1 rfl
  · exact (csv_writer_empty_guard "books.csv" [[("name", "b1")]]).2 (by simp)
